import Mathlib

/-!
Verification of the gphotos upload pipeline.

Shallow embedding of the two source files:
* `uploader.go` — the `Uploader` collaborator (`Upload`, `CreateMediaItems`,
  the `MaxUploadTokensPerCreateMediaItemsCall` constant);
* the unnamed main file — the pipeline `run`: path source, worker pool with
  retry, batcher, and the join barrier gating the close of the token stream.

Errors are modelled as `String`, file contents as `String`, and the remote
HTTP calls as explicit function parameters, so every definition is
executable.  Concurrency-free components are sequentialized; the one claim
about the join barrier is settled over a small labelled transition system.
-/

namespace GPhotos

/-- `type UploadToken string` from `uploader.go`. -/
abbrev UploadToken := String

/-- The constant `MaxUploadTokensPerCreateMediaItemsCall = 50` from `uploader.go`. -/
def MaxUploadTokensPerCreateMediaItemsCall : Nat := 50

/-- An HTTP request as built by `Upload`: method, URL, headers and body. -/
structure HTTPRequest where
  method : String
  url : String
  headers : List (String × String)
  body : String
deriving Repr, DecidableEq

/-- An HTTP response as observed by `Upload`: the status code and the result
of reading the response body (`ioutil.ReadAll` may fail). -/
structure HTTPResponse where
  statusCode : Nat
  bodyContents : Except String String
deriving Repr

/-- The fixed upload endpoint URL from `Upload`. -/
def uploadsURL : String := "https://photoslibrary.googleapis.com/v1/uploads"

/-- The HTTP request `Upload` builds (`http.NewRequest` plus the three
`req.Header.Set` calls): a POST to the uploads URL carrying the file content
as body. -/
def uploadRequest (filename content : String) : HTTPRequest :=
  { method := "POST"
    url := uploadsURL
    headers := [("content-type", "application/octet-stream"),
                ("x-goog-upload-file-name", filename),
                ("x-goog-upload-protocol", "raw")]
    body := content }

/-- Embedding of `(u *Uploader) Upload(filename, r)` from `uploader.go`:
build the POST request with the three headers, execute it via the injected
client (`doCall` models `u.client.Do`), read the body, and return the raw
body bytes as the token.  The Go code never inspects `resp.StatusCode`. -/
def Upload (doCall : HTTPRequest → Except String HTTPResponse)
    (filename : String) (content : String) : Except String UploadToken :=
  match doCall (uploadRequest filename content) with
  | .error e => .error e
  | .ok resp =>
    match resp.bodyContents with
    | .error e => .error e
    | .ok rawToken => .ok rawToken

/-- `photoslibrary.SimpleMediaItem` as used by `CreateMediaItems`. -/
structure SimpleMediaItem where
  uploadToken : String
deriving Repr, DecidableEq

/-- `photoslibrary.NewMediaItem` as used by `CreateMediaItems`. -/
structure NewMediaItem where
  simpleMediaItem : SimpleMediaItem
deriving Repr, DecidableEq

/-- `photoslibrary.BatchCreateMediaItemsRequest` as used by `CreateMediaItems`. -/
structure BatchCreateMediaItemsRequest where
  newMediaItems : List NewMediaItem
deriving Repr, DecidableEq

/-- Embedding of `(u *Uploader) CreateMediaItems(tokens)` from `uploader.go`.
Returns the list of remote `BatchCreate` calls issued (each with its request)
together with the result.  Over the limit it errors before any remote call;
otherwise it builds `newMediaItems` by the appending loop of the Go code and
issues exactly one call (`doCall` models `u.service.MediaItems.BatchCreate(req).Do`). -/
def CreateMediaItems (doCall : BatchCreateMediaItemsRequest → Except String Unit)
    (tokens : List UploadToken) : List BatchCreateMediaItemsRequest × Except String Unit :=
  if tokens.length > MaxUploadTokensPerCreateMediaItemsCall then
    ([], .error s!"too many tokens, got {tokens.length}, cannot handle more than {MaxUploadTokensPerCreateMediaItemsCall}")
  else
    let newMediaItems : List NewMediaItem :=
      tokens.foldl (fun acc token => acc ++ [{ simpleMediaItem := { uploadToken := token } }]) []
    let req : BatchCreateMediaItemsRequest := { newMediaItems := newMediaItems }
    ([req], doCall req)

/-- Modelled from the spec: the Retry Wrapper (the external `retry.Do`
library call, whose source is outside this repository).  Given an attempt
budget and a fallible operation (indexed by the attempt number so the model
can speak about which attempt produced what), invoke it; on failure retry
until the budget is exhausted; return the invocation count together with the
final result, which is the last attempt's error when all attempts fail. -/
def retryDo : (attempts : Nat) → (op : Nat → Except String α) → Nat × Except String α
  | 0, _ => (0, .error "retry: no attempts configured")
  | 1, op => (1, op 0)
  | n + 2, op =>
    match op 0 with
    | .ok a => (1, .ok a)
    | .error _ =>
      let rest := retryDo (n + 1) (fun i => op (i + 1))
      (rest.1 + 1, rest.2)

/-- Embedding of `filepath.Base` as used by `uploadFile`: the last element of
the slash-separated path after dropping trailing slashes; `"/"` for the root
path and `"."` for the empty path. -/
def baseName (path : String) : String :=
  match ((path.splitOn "/").filter (fun c => c ≠ "")).getLast? with
  | some c => c
  | none => if path = "" then "." else "/"

/-- The error message `os.Open` produces for a missing file, as surfaced by
`uploadFile`. -/
def openErrorMsg (filename : String) : String :=
  s!"open {filename}: no such file or directory"

/-- The wrapping `errors.Wrapf(err, "error uploading %q", filename)` applied
by the worker to a terminal upload error. -/
def wrapUploadError (filename e : String) : String :=
  s!"error uploading \x22{filename}\x22: {e}"

/-- Embedding of `uploadFile(u, filename)` from the main file: open the file
(`openF` models `os.Open`; `none` is an open failure), then upload its
content under the base name (`upF` models `u.Upload`).  An open failure is
returned as this call's error. -/
def uploadFile (openF : String → Option String)
    (upF : String → String → Except String UploadToken)
    (filename : String) : Except String UploadToken :=
  match openF filename with
  | none => .error (openErrorMsg filename)
  | some content => upF (baseName filename) content

/-- The worker's per-file operation from `run` (lines 105–109): the Retry
Wrapper applied to `uploadFile` on a fixed filename; returns the invocation
count and the final result. -/
def workerUploadOp (attempts : Nat) (openF : String → Option String)
    (upF : String → String → Except String UploadToken)
    (filename : String) : Nat × Except String UploadToken :=
  retryDo attempts (fun _ => uploadFile openF upF filename)

/-- Sequentialized worker loop from `run` (lines 103–125): for each filename
drained from the path stream, run the retried upload; on a terminal error
return the error wrapped with the filename (`errors.Wrapf`) and the tokens
sent so far; on success append the token to the token stream. -/
def workerLoop (attempts : Nat) (openF : String → Option String)
    (upF : String → String → Except String UploadToken) :
    List String → List UploadToken → List UploadToken × Option String
  | [], sent => (sent, none)
  | filename :: rest, sent =>
    match (workerUploadOp attempts openF upF filename).2 with
    | .error e => (sent, some (wrapUploadError filename e))
    | .ok tok => workerLoop attempts openF upF rest (sent ++ [tok])

/-- Embedding of the batcher's inner `uploadBatch` closure from `run`
(lines 137–155), restricted to its commit behaviour: an empty batch is a
no-op (no commit call at all); a non-empty batch is committed.  Returns the
list of commit calls this flush performs. -/
def uploadBatch (batch : List UploadToken) : List (List UploadToken) :=
  if batch.length = 0 then [] else [batch]

/-- The batcher's flush with retry, from `run` (lines 137–147): an empty
batch returns immediately with no attempt; otherwise the Retry Wrapper is
applied to `u.CreateMediaItems(batch)` (`commitF` models the remote call). -/
def flushBatch (attempts : Nat) (commitF : List UploadToken → Except String Unit)
    (batch : List UploadToken) : Nat × Except String Unit :=
  if batch.length = 0 then (0, .ok ()) else retryDo attempts (fun _ => commitF batch)

/-- Embedding of the batcher loop from `run` (lines 157–169), observed at the
granularity of commit calls on the successful path: drain the token stream,
appending each token to the current batch; the instant the batch length
reaches `maxB` (`MaxUploadTokensPerCreateMediaItemsCall` in the code), flush
it and start an empty batch; when the stream closes, flush the final batch. -/
def batchLoop (maxB : Nat) : List UploadToken → List UploadToken → List (List UploadToken)
  | [], currentBatch => uploadBatch currentBatch
  | t :: ts, currentBatch =>
    let cb := currentBatch ++ [t]
    if maxB ≤ cb.length then uploadBatch cb ++ batchLoop maxB ts []
    else batchLoop maxB ts cb

/-- The batcher started on an empty current batch, as in `run` line 157. -/
def batcher (maxB : Nat) (tokens : List UploadToken) : List (List UploadToken) :=
  batchLoop maxB tokens []

/-- An observable event of the batcher: receiving a token from the token
stream, or issuing a commit call with a batch. -/
inductive BatchEvent where
  | recv (t : UploadToken)
  | commit (b : List UploadToken)
deriving Repr, DecidableEq

/-- The batcher loop of `run` (lines 157–169) observed as an event trace:
each token received from the stream is a `recv` event, and each commit call
is a `commit` event, in program order. -/
def batchTrace (maxB : Nat) : List UploadToken → List UploadToken → List BatchEvent
  | [], currentBatch => (uploadBatch currentBatch).map .commit
  | t :: ts, currentBatch =>
    let cb := currentBatch ++ [t]
    if maxB ≤ cb.length then
      .recv t :: ((uploadBatch cb).map .commit ++ batchTrace maxB ts [])
    else
      .recv t :: batchTrace maxB ts cb

/-- Sequentialized successful-path pipeline from `run`: the path source feeds
every filename to the worker loop; if any upload fails terminally the run
aborts with that error; otherwise the batcher commits the produced tokens.
Returns the upload tokens and the committed batches. -/
def runSeq (attempts maxB : Nat) (openF : String → Option String)
    (upF : String → String → Except String UploadToken)
    (filenames : List String) :
    Except String (List UploadToken × List (List UploadToken)) :=
  match workerLoop attempts openF upF filenames [] with
  | (_, some e) => .error e
  | (toks, none) => .ok (toks, batcher maxB toks)

/-- An observable event of the path source: emitting a path onto the path
stream, or closing the stream. -/
inductive PathEvent where
  | emit (f : String)
  | closeStream
deriving Repr, DecidableEq

/-- Embedding of the path source goroutine from `run` (lines 80–92): iterate
over the argument filenames; each iteration is a `select` between sending the
path and observing cancellation.  `cancelAt = some k` means the cancellation
signal fires before the `k`-th send (so `k` paths are emitted and then the
goroutine returns `ctx.Err()`); `none` means it never fires.  The deferred
`close(filenames)` closes the stream on every exit path. -/
def pathSource : List String → Option Nat → List PathEvent × Option String
  | [], _ => ([PathEvent.closeStream], none)
  | _ :: _, some 0 => ([PathEvent.closeStream], some "context canceled")
  | f :: fs, some (k + 1) =>
    let (evs, r) := pathSource fs (some k)
    (PathEvent.emit f :: evs, r)
  | f :: fs, none =>
    let (evs, r) := pathSource fs none
    (PathEvent.emit f :: evs, r)

/-- State of the worker pool's shutdown protocol from `run` (lines 96–133):
`n` workers each call `wg.Done()` exactly once when they exit (`exited` is the
set of workers that have done so, `counter` the WaitGroup counter, started at
`n` by the `wg.Add(1)` calls), and a dedicated goroutine runs `wg.Wait()`
followed by `close(uploadTokens)` (`closed`). -/
structure PoolState where
  n : Nat
  exited : Finset Nat
  counter : Nat
  closed : Bool

/-- Initial pool state: `wg.Add(1)` has run once per worker, no worker has
exited, the token stream is open. -/
def PoolState.init (n : Nat) : PoolState :=
  { n := n, exited := ∅, counter := n, closed := false }

/-- The transitions of the shutdown protocol: a worker `i` exits (its
deferred `wg.Done()` decrements the counter), or the closer goroutine,
unblocked from `wg.Wait()` only when the counter is zero, closes the token
stream. -/
inductive PoolStep : PoolState → PoolState → Prop
  | done {s : PoolState} (i : Nat) (hi : i < s.n) (hnotyet : i ∉ s.exited) :
      PoolStep s { s with exited := insert i s.exited, counter := s.counter - 1 }
  | close {s : PoolState} (hwait : s.counter = 0) (hopen : s.closed = false) :
      PoolStep s { s with closed := true }

/-- A pool state reachable from the initial state by any interleaving of the
shutdown transitions. -/
def PoolReachable (n : Nat) (s : PoolState) : Prop :=
  Relation.ReflTransGen PoolStep (PoolState.init n) s

/-! ## Helper lemmas -/

/-- Flushing never loses or duplicates tokens: concatenating the commits of
one flush gives back the batch. -/
theorem uploadBatch_flatten (cb : List UploadToken) : (uploadBatch cb).flatten = cb := by
  by_cases h : cb.length = 0
  · simp [uploadBatch, h, List.length_eq_zero.mp h]
  · simp [uploadBatch, h]

/-- The batcher loop never loses or duplicates a token: the concatenation of
all batches it commits is the in-progress batch followed by the rest of the
stream. -/
theorem batchLoop_flatten (maxB : Nat) (ts : List UploadToken) :
    ∀ cb, (batchLoop maxB ts cb).flatten = cb ++ ts := by
  induction ts with
  | nil => intro cb; simp [batchLoop, uploadBatch_flatten]
  | cons t ts ih =>
    intro cb
    simp only [batchLoop]
    by_cases h : maxB ≤ (cb ++ [t]).length
    · rw [if_pos h]
      simp [uploadBatch_flatten, ih]
    · rw [if_neg h]
      simp [ih]

/-- Members of the tail-less part of a cons either are the head or sit in the
tail's tail-less part. -/
theorem mem_dropLast_cons {α : Type} {b a : α} {l : List α}
    (h : b ∈ (a :: l).dropLast) : b = a ∨ b ∈ l.dropLast := by
  cases l with
  | nil => simp [List.dropLast] at h
  | cons x xs =>
    rw [List.dropLast_cons₂] at h
    rcases List.mem_cons.mp h with h | h
    · exact Or.inl h
    · exact Or.inr h

/-- Every batch the batcher loop commits has length at most the bound,
provided the in-progress batch is still below the bound. -/
theorem batchLoop_length_le (maxB : Nat) (ts : List UploadToken) :
    ∀ cb, cb.length < maxB → ∀ b ∈ batchLoop maxB ts cb, b.length ≤ maxB := by
  induction ts with
  | nil =>
    intro cb hcb b hb
    by_cases h : cb.length = 0
    · simp [batchLoop, uploadBatch, h] at hb
    · simp [batchLoop, uploadBatch, h] at hb
      subst hb
      exact le_of_lt hcb
  | cons t ts ih =>
    intro cb hcb b hb
    simp only [batchLoop] at hb
    by_cases h : maxB ≤ (cb ++ [t]).length
    · rw [if_pos h] at hb
      have hne : ¬((cb ++ [t]).length = 0) := by simp
      simp only [uploadBatch, if_neg hne] at hb
      rcases List.mem_append.mp hb with hb | hb
      · rw [List.mem_singleton.mp hb]
        simp only [List.length_append, List.length_cons, List.length_nil]
        omega
      · exact ih [] (by simp; omega) b hb
    · rw [if_neg h] at hb
      exact ih (cb ++ [t]) (by omega) b hb

/-- Every batch the batcher loop commits, except possibly the final one, has
length exactly the bound. -/
theorem batchLoop_dropLast_length (maxB : Nat) (ts : List UploadToken) :
    ∀ cb, cb.length < maxB → ∀ b ∈ (batchLoop maxB ts cb).dropLast, b.length = maxB := by
  induction ts with
  | nil =>
    intro cb hcb b hb
    by_cases h : cb.length = 0 <;> simp [batchLoop, uploadBatch, h] at hb
  | cons t ts ih =>
    intro cb hcb b hb
    simp only [batchLoop] at hb
    by_cases h : maxB ≤ (cb ++ [t]).length
    · rw [if_pos h] at hb
      have hne : ¬((cb ++ [t]).length = 0) := by simp
      simp only [uploadBatch, if_neg hne, List.singleton_append] at hb
      rcases mem_dropLast_cons hb with hb | hb
      · subst hb
        simp only [List.length_append, List.length_cons, List.length_nil] at h ⊢
        omega
      · exact ih [] (by simp; omega) b hb
    · rw [if_neg h] at hb
      exact ih (cb ++ [t]) (by omega) b hb

/-- The appending fold of `CreateMediaItems` builds exactly the map of its
body over the tokens. -/
theorem foldl_append_singleton {α β : Type} (f : α → β) (l : List α) :
    ∀ acc : List β, l.foldl (fun acc x => acc ++ [f x]) acc = acc ++ l.map f := by
  induction l with
  | nil => intro acc; simp
  | cons x xs ih => intro acc; simp [List.foldl, ih]

/-- When every attempt fails, the Retry Wrapper performs exactly the budgeted
number of invocations and returns the last attempt's error. -/
theorem retryDo_all_fail {α : Type} (n : Nat) :
    ∀ (op : Nat → Except String α) (e : Nat → String),
      (∀ i, i ≤ n → op i = .error (e i)) →
      retryDo (n + 1) op = (n + 1, .error (e n)) := by
  induction n with
  | zero =>
    intro op e hfail
    simp [retryDo, hfail 0 (Nat.le_refl 0)]
  | succ n ih =>
    intro op e hfail
    have h0 : op 0 = .error (e 0) := hfail 0 (Nat.zero_le _)
    have hrec := ih (fun i => op (i + 1)) (fun i => e (i + 1))
      (fun i hi => hfail (i + 1) (by omega))
    simp [retryDo, h0, hrec]

/-- The Retry Wrapper never invokes the operation more often than the attempt
budget. -/
theorem retryDo_count_le {α : Type} (attempts : Nat) (op : Nat → Except String α) :
    (retryDo attempts op).1 ≤ attempts := by
  induction attempts using Nat.strong_induction_on generalizing op with
  | _ n ih =>
    match n with
    | 0 => simp [retryDo]
    | 1 => simp [retryDo]
    | n + 2 =>
      cases hop : op 0 with
      | ok a => simp [retryDo, hop]
      | error e =>
        have := ih (n + 1) (by omega) (fun i => op (i + 1))
        simp [retryDo, hop]
        omega

/-- The commit payload of a batcher event, if it is a commit. -/
def commitOf : BatchEvent → Option (List UploadToken)
  | .commit b => some b
  | .recv _ => none

/-- Filtering the commit payloads out of a list of commit events recovers
the batches. -/
theorem filterMap_commitOf_commit (l : List (List UploadToken)) :
    List.filterMap (commitOf ∘ BatchEvent.commit) l = l := by
  induction l with
  | nil => rfl
  | cons x xs ih => simp [commitOf, List.filterMap_cons, ih]

/-- The commit calls of the batcher's event trace are exactly the batches
produced by the commit-level view of the same loop. -/
theorem batchTrace_filterMap (maxB : Nat) (ts : List UploadToken) :
    ∀ cb, (batchTrace maxB ts cb).filterMap commitOf = batchLoop maxB ts cb := by
  induction ts with
  | nil =>
    intro cb
    simp only [batchTrace, batchLoop]
    rw [List.filterMap_map]
    exact filterMap_commitOf_commit (uploadBatch cb)
  | cons t ts ih =>
    intro cb
    simp only [batchTrace, batchLoop]
    by_cases h : maxB ≤ (cb ++ [t]).length
    · rw [if_pos h, if_pos h]
      simp only [List.filterMap_cons, commitOf, List.filterMap_append,
        List.filterMap_map, filterMap_commitOf_commit, ih]
    · rw [if_neg h, if_neg h]
      simp [List.filterMap_cons, commitOf, ih]

/-- When the whole remaining stream fits in one batch together with the
in-progress batch (and they are not both empty), the batcher's trace is all
the receives followed by a single commit of everything, in order. -/
theorem batchTrace_small (maxB : Nat) (ts : List UploadToken) :
    ∀ cb, cb ++ ts ≠ [] → (cb ++ ts).length ≤ maxB →
      batchTrace maxB ts cb = ts.map BatchEvent.recv ++ [BatchEvent.commit (cb ++ ts)] := by
  induction ts with
  | nil =>
    intro cb hne hlen
    have hcb : ¬(cb.length = 0) := by
      simpa using fun h => hne (by simpa using h)
    simp [batchTrace, uploadBatch, hcb]
  | cons t ts ih =>
    intro cb hne hlen
    simp only [batchTrace]
    by_cases h : maxB ≤ (cb ++ [t]).length
    · have hts : ts = [] := by
        simp only [List.length_append, List.length_cons, List.length_nil] at hlen h
        have := List.length_eq_zero.mpr (rfl : ([] : List UploadToken) = [])
        cases ts with
        | nil => rfl
        | cons u us => simp at hlen h; omega
      subst hts
      rw [if_pos h]
      have hne2 : ¬((cb ++ [t]).length = 0) := by simp
      simp [batchTrace, uploadBatch, hne2]
    · rw [if_neg h]
      have hrec := ih (cb ++ [t]) (by simp) (by simpa using hlen)
      simp [hrec]

/-- With no cancellation, the path source emits every filename in input
order and then closes the stream, reporting no error. -/
theorem pathSource_no_cancel (filenames : List String) :
    pathSource filenames none =
      (filenames.map PathEvent.emit ++ [PathEvent.closeStream], none) := by
  induction filenames with
  | nil => simp [pathSource]
  | cons f fs ih => simp [pathSource, ih]

/-- When cancellation fires before the `k`-th send, the path source emits
exactly the first `k` filenames in order and returns the cancellation
error. -/
theorem pathSource_cancel (filenames : List String) :
    ∀ k, k < filenames.length →
      pathSource filenames (some k) =
        ((filenames.take k).map PathEvent.emit ++ [PathEvent.closeStream],
          some "context canceled") := by
  induction filenames with
  | nil => intro k hk; simp at hk
  | cons f fs ih =>
    intro k hk
    cases k with
    | zero => simp [pathSource]
    | succ k => simp [pathSource, ih k (by simpa using hk)]

/-- The inductive invariant of the worker-pool shutdown protocol: the
WaitGroup counter counts the workers that have not yet exited, and the token
stream is closed only once every worker has. -/
def PoolInv (n : Nat) (s : PoolState) : Prop :=
  s.n = n ∧ s.exited ⊆ Finset.range n ∧ s.counter + s.exited.card = n ∧
    (s.closed = true → s.exited = Finset.range n)

/-- The invariant holds initially. -/
theorem poolInv_init (n : Nat) : PoolInv n (PoolState.init n) := by
  simp [PoolInv, PoolState.init]

/-- Every shutdown transition preserves the invariant. -/
theorem poolInv_step {n : Nat} {s s' : PoolState} (hinv : PoolInv n s)
    (hstep : PoolStep s s') : PoolInv n s' := by
  obtain ⟨hn, hsub, hcard, hclosed⟩ := hinv
  cases hstep with
  | done i hi hnotyet =>
    have himem : i ∈ Finset.range n := Finset.mem_range.mpr (hn ▸ hi)
    refine ⟨hn, ?_, ?_, ?_⟩
    · intro x hx
      rcases Finset.mem_insert.mp hx with h | h
      · exact h ▸ himem
      · exact hsub h
    · show s.counter - 1 + (insert i s.exited).card = n
      rw [Finset.card_insert_of_not_mem hnotyet]
      have hlt : s.exited.card < n := by
        rcases Nat.lt_or_ge s.exited.card n with h | h
        · exact h
        · have : s.exited = Finset.range n :=
            Finset.eq_of_subset_of_card_le hsub (by rw [Finset.card_range]; omega)
          exact absurd (this ▸ himem) hnotyet
      omega
    · intro hc
      have hmem : i ∈ s.exited := by
        rw [hclosed hc]
        exact himem
      exact absurd hmem hnotyet
  | close hwait hopen =>
    refine ⟨hn, hsub, hcard, fun _ => ?_⟩
    exact Finset.eq_of_subset_of_card_le hsub
      (by rw [Finset.card_range]; show n ≤ s.exited.card; omega)

/-- The invariant holds at every reachable state. -/
theorem poolInv_reachable {n : Nat} {s : PoolState} (h : PoolReachable n s) :
    PoolInv n s := by
  induction h with
  | refl => exact poolInv_init n
  | tail _ hstep ih => exact poolInv_step ih hstep

/-- Receive events carry no commit payload. -/
theorem filterMap_commitOf_recv (l : List UploadToken) :
    List.filterMap (commitOf ∘ BatchEvent.recv) l = [] := by
  induction l with
  | nil => rfl
  | cons x xs ih => simp [commitOf, List.filterMap_cons, ih]

/-! ## Claims -/

/-- C1: for every successful run of the batcher over a finite token stream,
the concatenation of all batches passed to commit calls equals — as a
multiset, so no token is lost and no token is committed twice — the sequence
of tokens received from the token stream (indeed they are equal even as
lists). -/
theorem batcher_commits_exactly_received_tokens_C1 (tokens : List UploadToken) :
    (batcher MaxUploadTokensPerCreateMediaItemsCall tokens).flatten = tokens ∧
    ((batcher MaxUploadTokensPerCreateMediaItemsCall tokens).flatten : Multiset UploadToken)
      = (tokens : Multiset UploadToken) := by
  have h : (batcher MaxUploadTokensPerCreateMediaItemsCall tokens).flatten = tokens := by
    simpa [batcher] using
      batchLoop_flatten MaxUploadTokensPerCreateMediaItemsCall tokens []
  exact ⟨h, by rw [h]⟩

/-- C2: every committed batch has length at most the maximum batch size
constant, every committed batch except possibly the final one has length
exactly that constant, and with maximum batch size 2 and 5 received tokens
exactly 3 commit calls occur, with sizes [2, 2, 1] in flush order. -/
theorem batcher_batch_sizes_C2 :
    (∀ tokens : List UploadToken,
      ∀ b ∈ batcher MaxUploadTokensPerCreateMediaItemsCall tokens,
        b.length ≤ MaxUploadTokensPerCreateMediaItemsCall) ∧
    (∀ tokens : List UploadToken,
      ∀ b ∈ (batcher MaxUploadTokensPerCreateMediaItemsCall tokens).dropLast,
        b.length = MaxUploadTokensPerCreateMediaItemsCall) ∧
    (batcher 2 ["a", "b", "c", "d", "e"]).map List.length = [2, 2, 1] := by
  refine ⟨?_, ?_, rfl⟩
  · intro tokens b hb
    exact batchLoop_length_le _ tokens []
      (by simp [MaxUploadTokensPerCreateMediaItemsCall]) b hb
  · intro tokens b hb
    exact batchLoop_dropLast_length _ tokens []
      (by simp [MaxUploadTokensPerCreateMediaItemsCall]) b hb

/-- C2 witness: a concrete committed batch obeys the size bound. -/
theorem batcher_batch_sizes_C2_witness :
    (["a"] : List UploadToken).length ≤ MaxUploadTokensPerCreateMediaItemsCall :=
  batcher_batch_sizes_C2.1 ["a"] ["a"] (by decide)

/-- C3 counterexample: for a file that can never be opened, the worker's
per-file operation — the Retry Wrapper around `uploadFile`, whose body
contains the `os.Open` — invokes the failing open ten times (the wrapper's
default attempt budget), not once: the open failure IS retried by the Retry
Wrapper, contrary to the claim. -/
theorem open_failure_is_retried_C3_counterexample :
    workerUploadOp 10 (fun _ => none) (fun _ _ => Except.ok "tok") "photo.jpg"
      = (10, Except.error (openErrorMsg "photo.jpg")) ∧
    1 < (workerUploadOp 10 (fun _ => none) (fun _ _ => Except.ok "tok") "photo.jpg").1 := by
  refine ⟨rfl, by decide⟩

/-- C3 amended: an open failure is part of the retried operation — the file
is reopened once per attempt, up to the Retry Wrapper's budget — and once
the budget is exhausted the worker aborts the run with that file's open
error, wrapped with the filename. -/
theorem open_failure_retried_then_aborts_C3 (attempts : Nat) (filename : String)
    (rest : List String) (sent : List UploadToken)
    (openF : String → Option String)
    (upF : String → String → Except String UploadToken)
    (h0 : 0 < attempts) (hopen : openF filename = none) :
    workerUploadOp attempts openF upF filename =
      (attempts, Except.error (openErrorMsg filename)) ∧
    workerLoop attempts openF upF (filename :: rest) sent =
      (sent, some (wrapUploadError filename (openErrorMsg filename))) := by
  obtain ⟨n, rfl⟩ : ∃ n, attempts = n + 1 := ⟨attempts - 1, by omega⟩
  have hw : workerUploadOp (n + 1) openF upF filename
      = (n + 1, Except.error (openErrorMsg filename)) :=
    retryDo_all_fail n _ (fun _ => openErrorMsg filename)
      (fun i _ => by simp [uploadFile, hopen])
  refine ⟨hw, ?_⟩
  simp [workerLoop, hw]

/-- C3 witness: the amended behaviour at a concrete never-openable file. -/
theorem open_failure_retried_then_aborts_C3_witness :
    workerUploadOp 2 (fun _ => none) (fun _ _ => Except.ok "tok") "a.jpg" =
      (2, Except.error (openErrorMsg "a.jpg")) ∧
    workerLoop 2 (fun _ => none) (fun _ _ => Except.ok "tok") ["a.jpg"] [] =
      ([], some (wrapUploadError "a.jpg" (openErrorMsg "a.jpg"))) :=
  open_failure_retried_then_aborts_C3 2 "a.jpg" [] []
    (fun _ => none) (fun _ _ => Except.ok "tok") (by decide) rfl

/-- C4: a token list longer than the maximum is rejected with an error and no
remote call at all, while a list within the maximum issues exactly one remote
call, whose request holds exactly one new media item per token, in input
order. -/
theorem createMediaItems_limit_C4
    (doCall : BatchCreateMediaItemsRequest → Except String Unit)
    (tokens : List UploadToken) :
    (tokens.length > MaxUploadTokensPerCreateMediaItemsCall →
      (CreateMediaItems doCall tokens).1 = [] ∧
      ∃ e, (CreateMediaItems doCall tokens).2 = Except.error e) ∧
    (tokens.length ≤ MaxUploadTokensPerCreateMediaItemsCall →
      ∃ req, (CreateMediaItems doCall tokens).1 = [req] ∧
        req.newMediaItems.map (fun m => m.simpleMediaItem.uploadToken) = tokens ∧
        (CreateMediaItems doCall tokens).2 = doCall req) := by
  constructor
  · intro h
    simp [CreateMediaItems, h]
  · intro h
    have hng : ¬(tokens.length > MaxUploadTokensPerCreateMediaItemsCall) := by omega
    refine ⟨{ newMediaItems :=
        tokens.map (fun t => { simpleMediaItem := { uploadToken := t } }) }, ?_, ?_, ?_⟩
    · simp [CreateMediaItems, hng, foldl_append_singleton]
    · have hfun : ((fun m : NewMediaItem => m.simpleMediaItem.uploadToken) ∘
          fun t : UploadToken =>
            ({ simpleMediaItem := { uploadToken := t } } : NewMediaItem)) = id :=
        funext fun _ => rfl
      rw [List.map_map, hfun, List.map_id]
    · simp [CreateMediaItems, hng, foldl_append_singleton]

/-- C4 witness: 51 tokens are rejected before any remote call. -/
theorem createMediaItems_limit_C4_witness :
    (CreateMediaItems (fun _ => Except.ok ()) (List.replicate 51 "t")).1 = [] ∧
    ∃ e, (CreateMediaItems (fun _ => Except.ok ()) (List.replicate 51 "t")).2
      = Except.error e :=
  (createMediaItems_limit_C4 (fun _ => Except.ok ()) (List.replicate 51 "t")).1 (by decide)

/-- C5: with no input files the sequential pipeline succeeds with zero upload
calls and zero commit calls; in general the batcher over an empty token
stream commits nothing, and the final flush of an empty batch skips the
commit call entirely (zero attempts of the committer). -/
theorem empty_run_no_calls_C5 (attempts maxB : Nat) (openF : String → Option String)
    (upF : String → String → Except String UploadToken)
    (commitF : List UploadToken → Except String Unit) :
    runSeq attempts maxB openF upF [] = Except.ok ([], []) ∧
    batcher maxB [] = [] ∧
    uploadBatch [] = [] ∧
    flushBatch attempts commitF [] = (0, Except.ok ()) :=
  ⟨rfl, rfl, rfl, rfl⟩

/-- C6: if the batcher receives exactly N tokens with 0 < N ≤ the maximum
batch size and the stream then closes, exactly one commit call occurs, it
contains all N tokens, and in the event trace it happens only after every
token has been received — including the boundary case N = maximum. -/
theorem single_final_commit_C6 (maxB : Nat) (tokens : List UploadToken)
    (hpos : 0 < tokens.length) (hle : tokens.length ≤ maxB) :
    batchTrace maxB tokens []
      = tokens.map BatchEvent.recv ++ [BatchEvent.commit tokens] ∧
    batcher maxB tokens = [tokens] := by
  have hne : ([] : List UploadToken) ++ tokens ≠ [] := by
    simp only [List.nil_append]
    intro h
    rw [h] at hpos
    simp at hpos
  have htr := batchTrace_small maxB tokens [] hne (by simpa using hle)
  have hfm := batchTrace_filterMap maxB tokens []
  rw [htr] at hfm
  simp only [List.nil_append] at htr hfm
  refine ⟨htr, ?_⟩
  simp only [List.filterMap_append, List.filterMap_map, filterMap_commitOf_recv,
    List.filterMap_cons, commitOf, List.filterMap_nil, List.nil_append] at hfm
  simpa [batcher] using hfm.symm

/-- C6 witness: two tokens with maximum three give one trailing commit. -/
theorem single_final_commit_C6_witness :
    batchTrace 3 ["a", "b"] []
      = [BatchEvent.recv "a", BatchEvent.recv "b", BatchEvent.commit ["a", "b"]] ∧
    batcher 3 ["a", "b"] = [["a", "b"]] :=
  single_final_commit_C6 3 ["a", "b"] (by decide) (by decide)

/-- C7: the Retry Wrapper re-invokes its operation on failure, never more
often than the attempt budget, returns the last attempt's error once the
budget is exhausted, and the very same wrapper is the one applied to both the
per-file upload and the per-batch commit. -/
theorem retry_wrapper_contract_C7 :
    (∀ (attempts : Nat) (op : Nat → Except String UploadToken),
        (retryDo attempts op).1 ≤ attempts) ∧
    (∀ (n : Nat) (op : Nat → Except String UploadToken) (e : Nat → String),
        (∀ i, i ≤ n → op i = Except.error (e i)) →
        retryDo (n + 1) op = (n + 1, Except.error (e n))) ∧
    (∀ (attempts : Nat) (openF : String → Option String)
        (upF : String → String → Except String UploadToken) (filename : String),
        workerUploadOp attempts openF upF filename
          = retryDo attempts (fun _ => uploadFile openF upF filename)) ∧
    (∀ (attempts : Nat) (commitF : List UploadToken → Except String Unit)
        (batch : List UploadToken), batch.length ≠ 0 →
        flushBatch attempts commitF batch = retryDo attempts (fun _ => commitF batch)) := by
  refine ⟨fun a op => retryDo_count_le a op, fun n op e h => retryDo_all_fail n op e h,
    fun _ _ _ _ => rfl, fun attempts commitF batch hb => ?_⟩
  simp [flushBatch, hb]

/-- C7 witness: two always-failing attempts exhaust a budget of two and
surface the last error. -/
theorem retry_wrapper_contract_C7_witness :
    retryDo 2 (fun _ => (Except.error "boom" : Except String UploadToken))
      = (2, Except.error "boom") :=
  retry_wrapper_contract_C7.2.1 1 (fun _ => Except.error "boom") (fun _ => "boom")
    (fun _ _ => rfl)

/-- C8: the path source emits the input paths one at a time in exactly the
input order and closes the stream after the last one when no cancellation
occurs; when the cancellation signal fires before the k-th send it emits
only the first k paths and returns the cancellation error. -/
theorem path_source_order_and_cancel_C8 (filenames : List String) :
    pathSource filenames none
      = (filenames.map PathEvent.emit ++ [PathEvent.closeStream], none) ∧
    (∀ k, k < filenames.length →
      pathSource filenames (some k)
        = ((filenames.take k).map PathEvent.emit ++ [PathEvent.closeStream],
            some "context canceled")) :=
  ⟨pathSource_no_cancel filenames, pathSource_cancel filenames⟩

/-- C8 witness: cancellation before the second send emits one path only. -/
theorem path_source_order_and_cancel_C8_witness :
    pathSource ["a", "b", "c"] (some 1)
      = ([PathEvent.emit "a", PathEvent.closeStream], some "context canceled") :=
  (path_source_order_and_cancel_C8 ["a", "b", "c"]).2 1 (by decide)

/-- C9: in every reachable state of the worker-pool shutdown protocol, if the
token stream has been closed then every one of the n workers has already
exited — the WaitGroup join barrier gates the close, so no worker can send
on a closed token stream. -/
theorem token_stream_close_gated_by_join_C9 (n : Nat) (s : PoolState)
    (hr : PoolReachable n s) (hc : s.closed = true) :
    ∀ i, i < n → i ∈ s.exited := by
  obtain ⟨hn, hsub, hcard, hclosed⟩ := poolInv_reachable hr
  intro i hi
  rw [hclosed hc]
  exact Finset.mem_range.mpr hi

/-- C9 witness: a concrete run with one worker — the worker exits, the closer
passes the barrier and closes, and the worker is indeed recorded exited. -/
theorem token_stream_close_gated_by_join_C9_witness :
    (0 : Nat) ∈ (PoolState.mk 1 (insert 0 ∅) 0 true).exited :=
  token_stream_close_gated_by_join_C9 1 (PoolState.mk 1 (insert 0 ∅) 0 true)
    (Relation.ReflTransGen.tail
      (Relation.ReflTransGen.tail Relation.ReflTransGen.refl
        (PoolStep.done 0 (by decide) (Finset.not_mem_empty 0)))
      (PoolStep.close rfl rfl))
    rfl 0 (by decide)

/-- C10: whenever executing the HTTP request succeeds and reading the
response body succeeds, `Upload` returns the raw body as the token whatever
the status code is — a non-2xx response is not reported as a failure. -/
theorem upload_ignores_status_code_C10
    (doCall : HTTPRequest → Except String HTTPResponse)
    (filename content body : String) (statusCode : Nat)
    (h : doCall (uploadRequest filename content)
      = Except.ok { statusCode := statusCode, bodyContents := Except.ok body }) :
    Upload doCall filename content = Except.ok body := by
  simp [Upload, h]

/-- C10 witness: a 500 response whose body reads "token123" still yields the
token. -/
theorem upload_ignores_status_code_C10_witness :
    Upload (fun _ => Except.ok
        { statusCode := 500, bodyContents := Except.ok "token123" })
      "p.jpg" "bytes" = Except.ok "token123" :=
  upload_ignores_status_code_C10
    (fun _ => Except.ok { statusCode := 500, bodyContents := Except.ok "token123" })
    "p.jpg" "bytes" "token123" 500 rfl

end GPhotos
